import Mathlib

/-!
Verification development for the file-sender repository.

Server side (supabase/functions/upload/index.ts): the ingestion handler is
embedded as `FileSender.handleRequest`, parameterised by the inputs the real
handler draws from its environment: the request method, the optional `file`
field of the multipart body, the submission timestamp (`Date.now()`), the
fractional base-36 digits of the `Math.random()` value, the object store and
the public-URL resolver.

Client side (src/components/FileUploader.tsx): `validateFile`, `uploadFileRun`
(the body of `uploadFile`, with the network outcome made explicit and the
fetch-call count and interval bookkeeping recorded), `handleUpload`,
`removeFile`, `addFile` and the 200ms interval body `progressTick`.
-/

namespace FileSender

/-! ### Server model: supabase/functions/upload/index.ts -/

/-- A character kept unchanged by the sanitizer: the class `[a-zA-Z0-9._-]`
of `file.name.replace(/[^a-zA-Z0-9._-]/g, '_')` (index.ts line 56). -/
def isSafeChar (c : Char) : Bool :=
  c.isAlphanum || c == '.' || c == '_' || c == '-'

/-- `file.name.replace(/[^a-zA-Z0-9._-]/g, '_')` (index.ts line 56). -/
def sanitize (name : List Char) : List Char :=
  name.map fun c => if isSafeChar c then c else '_'

/-- The decimal digit character for `d` (used to render `Date.now()` in the
template literal on index.ts line 57). -/
def decDigitChar (d : Nat) : Char := Char.ofNat (48 + d)

/-- Decimal rendering of a natural number, as `${timestamp}` produces it. -/
def natDecimal (n : Nat) : List Char :=
  if n = 0 then ['0'] else (Nat.digits 10 n).reverse.map decDigitChar

/-- `Math.random().toString(36).substring(2, 8)` (index.ts line 55), where
`fracDigits` is the list of base-36 digit characters after the leading `0.`
of the `toString(36)` representation (`[]` when the random value is `0`,
whose representation is just `"0"`); `substring(2, 8)` keeps at most the
first six of them. -/
def randomToken (fracDigits : List Char) : List Char := fracDigits.take 6

/-- `` `${timestamp}-${randomStr}-${sanitizedName}` `` (index.ts lines 54-57). -/
def uniqueFileName (ts : Nat) (fracDigits : List Char) (origName : List Char) :
    List Char :=
  natDecimal ts ++ '-' :: (randomToken fracDigits ++ '-' :: sanitize origName)

/-- `\d` of the spec pattern. -/
def isDecDigit (c : Char) : Bool := 48 ≤ c.toNat && c.toNat ≤ 57

/-- `[0-9a-z]` of the spec pattern (a base-36 digit character). -/
def isBase36Char (c : Char) : Bool :=
  isDecDigit c || (97 ≤ c.toNat && c.toNat ≤ 122)

/-- All decompositions of a list into a prefix/suffix pair, used to decide
the regular expression of scenario D by exhaustive search. -/
def splitsOf : List Char → List (List Char × List Char)
  | [] => [([], [])]
  | c :: cs => ([], c :: cs) :: (splitsOf cs).map fun p => (c :: p.1, p.2)

/-- After `\d+-` has been consumed: `[0-9a-z]{6}-[A-Za-z0-9._-]+$`. -/
def tokenAndRest (r : List Char) : Bool :=
  decide ((r.take 6).length = 6) && (r.take 6).all isBase36Char &&
    match r.drop 6 with
    | '-' :: c => !c.isEmpty && c.all isSafeChar
    | _ => false

/-- Decision procedure for a full match of the spec pattern
`^\d+-[0-9a-z]{6}-[A-Za-z0-9._-]+$`: some prefix of the string is a nonempty
run of decimal digits followed by `-`, six base-36 characters, `-`, and a
nonempty tail of safe characters. -/
def patMatch (s : List Char) : Bool :=
  (splitsOf s).any fun p =>
    !p.1.isEmpty && p.1.all isDecDigit &&
      match p.2 with
      | '-' :: r => tokenAndRest r
      | _ => false

/-- The `file` field of the multipart body (index.ts line 25). -/
structure IncomingFile where
  name : List Char
  size : Nat
  ftype : String
deriving Repr, DecidableEq

/-- Outcome of `supabase.storage.from('uploads').upload(...)` (line 62-67). -/
inductive StoreResult
  | ok (path : String)
  | storeErr (message : String)
deriving Repr, DecidableEq

/-- The argument bundle of one `.upload(uniqueFileName, file, {contentType,
upsert})` call (index.ts lines 62-67). -/
structure StoreCall where
  bucket : String
  objectName : List Char
  contentType : String
  upsert : Bool
deriving Repr, DecidableEq

/-- The JSON body of a response of the handler. -/
inductive ReplyBody
  | empty
  | errorBody (message : String)
  | successBody (name : List Char) (size : Nat) (ftype : String)
      (path : String) (url : String)
deriving Repr, DecidableEq

/-- An HTTP response of the handler: status code and JSON body. -/
structure ServerReply where
  status : Nat
  body : ReplyBody
deriving Repr, DecidableEq

/-- `const maxSize = 10 * 1024 * 1024` (index.ts line 41). -/
def maxSize : Nat := 10 * 1024 * 1024

/-- The `serve` callback of index.ts, lines 9-107, on the happy control flow
(the surrounding `catch` of lines 108-118 only handles faults of the ambient
runtime, which the embedding does not produce).  Returns the reply together
with the list of store calls issued. -/
def handleRequest (method : String) (file : Option IncomingFile)
    (ts : Nat) (fracDigits : List Char)
    (store : StoreCall → StoreResult) (publicUrl : List Char → String) :
    ServerReply × List StoreCall :=
  if method = "OPTIONS" then
    ({ status := 200, body := .empty }, [])
  else
    match file with
    | none => ({ status := 400, body := .errorBody "No file provided" }, [])
    | some f =>
      if f.size > maxSize then
        ({ status := 400, body := .errorBody "File exceeds 10MB limit" }, [])
      else
        let objName := uniqueFileName ts fracDigits f.name
        let call : StoreCall :=
          { bucket := "uploads", objectName := objName,
            contentType := f.ftype, upsert := false }
        match store call with
        | .storeErr m =>
            ({ status := 500, body := .errorBody ("Upload failed: " ++ m) },
             [call])
        | .ok path =>
            ({ status := 200,
               body := .successBody f.name f.size f.ftype path
                 (publicUrl objName) }, [call])

/-! ### Client model: src/components/FileUploader.tsx -/

/-- Per-task lifecycle status (`FileUploader.tsx` line 9). -/
inductive UStatus
  | pending | uploading | success | error
deriving Repr, DecidableEq

/-- The fields of the browser `File` object that the logic reads. -/
structure JsFile where
  name : String
  size : Nat
  ftype : String
deriving Repr, DecidableEq

/-- The `UploadedFile` record of FileUploader.tsx lines 6-12. -/
structure UploadedFile where
  id : String
  file : JsFile
  status : UStatus
  progress : Nat
  errorMessage : Option String
deriving Repr, DecidableEq

/-- The `FileUploaderProps` configuration with its defaults
(FileUploader.tsx lines 36-40): `maxFileSize` is in MB. -/
structure UploaderConfig where
  endpoint : String := "/api/upload"
  maxFileSize : Nat := 10
  acceptedTypes : List String := ["*"]
deriving Repr, DecidableEq

/-- `validateFile` (FileUploader.tsx lines 48-56).  `rmatch ty pat` stands for
the truthiness of the JavaScript `ty.match(pat)` regular-expression search,
kept abstract (the embedding totalises it to a boolean). -/
def validateFile (rmatch : String → String → Bool) (cfg : UploaderConfig)
    (f : JsFile) : Option String :=
  if f.size > cfg.maxFileSize * 1024 * 1024 then
    some ("File exceeds " ++ toString cfg.maxFileSize ++ "MB limit")
  else if cfg.acceptedTypes.head? != some "*" &&
      !(cfg.acceptedTypes.any fun t => rmatch f.ftype t) then
    some "File type not accepted"
  else none

/-- One task built by `addFiles` (FileUploader.tsx lines 61-66). -/
def addFile (f : JsFile) (now : Nat) (randSuffix : String) : UploadedFile :=
  { id := f.name ++ "-" ++ toString now ++ "-" ++ randSuffix,
    file := f, status := .pending, progress := 0, errorMessage := none }

/-- `removeFile` (FileUploader.tsx lines 71-73): keep the tasks whose id
differs. -/
def removeFile (id : String) (files : List UploadedFile) : List UploadedFile :=
  files.filter fun f => f.id != id

/-- The body of the 200ms `setInterval` callback (FileUploader.tsx lines
116-124): advance the matching task by +20 capped at 90, only while it is
`uploading` with progress below 90. -/
def progressTick (id : String) (files : List UploadedFile) :
    List UploadedFile :=
  files.map fun f =>
    if f.id == id && f.status == UStatus.uploading && decide (f.progress < 90)
    then { f with progress := min (f.progress + 20) 90 }
    else f

/-- How the `fetch` on FileUploader.tsx line 126 settles: a response with its
status code and status text, or a rejection.  `exception (some s)` is a thrown
`Error` whose `message` is `s`; `exception none` is a thrown non-`Error`
value (line 139 then substitutes `'Upload failed'`). -/
inductive NetOutcome
  | response (statusCode : Nat) (statusText : String)
  | exception (message : Option String)
deriving Repr, DecidableEq

/-- `response.ok`: status code in the 2xx range. -/
def respOk (statusCode : Nat) : Bool := 200 ≤ statusCode && statusCode < 300

/-- `netFails net` holds exactly when the branch of `uploadFile` taken for
`net` is an error branch (`!response.ok` throw, or a rejected fetch). -/
def netFails : NetOutcome → Bool
  | .response code _ => !respOk code
  | .exception _ => true

/-- The error detail `uploadFile` derives for a failing outcome: the
`Upload failed: ${response.statusText}` message of line 134, or the caught
exception's message with the `'Upload failed'` fallback of line 139. -/
def failMessage : NetOutcome → String
  | .response _ text => "Upload failed: " ++ text
  | .exception m => m.getD "Upload failed"

/-- Result of one `uploadFile` run: the returned task value, how many times
`fetch` was called, whether the progress interval was started, and whether
`clearInterval` was executed for it. -/
structure UploadRun where
  task : UploadedFile
  fetchCalls : Nat
  timerStarted : Bool
  timerCleared : Bool
deriving Repr, DecidableEq

/-- `uploadFile` (FileUploader.tsx lines 98-142) with the outcome of the
`fetch` made explicit.  On a validation error the function returns before
building the form data: no fetch, no interval.  Otherwise the interval is
started, `fetch` is called once, and:
 * a 2xx response reaches line 131 (`clearInterval`) and returns the success
   task of line 137;
 * a non-2xx response reaches line 131 and then throws at line 134, so the
   interval is cleared and the catch block returns the error task;
 * a rejected fetch jumps from line 126 straight to the catch block:
   line 131 is never executed, so the interval is NOT cleared. -/
def uploadFileRun (rmatch : String → String → Bool) (cfg : UploaderConfig)
    (t : UploadedFile) (net : NetOutcome) : UploadRun :=
  match validateFile rmatch cfg t.file with
  | some msg =>
      { task := { t with status := .error, errorMessage := some msg },
        fetchCalls := 0, timerStarted := false, timerCleared := false }
  | none =>
      match net with
      | .response code text =>
          if respOk code then
            { task := { t with status := .success, progress := 100 },
              fetchCalls := 1, timerStarted := true, timerCleared := true }
          else
            { task := { t with status := .error,
                               errorMessage := some ("Upload failed: " ++ text),
                               progress := 0 },
              fetchCalls := 1, timerStarted := true, timerCleared := true }
      | .exception msg =>
          { task := { t with status := .error,
                             errorMessage := some (msg.getD "Upload failed"),
                             progress := 0 },
            fetchCalls := 1, timerStarted := true, timerCleared := false }

/-- `handleUpload` (FileUploader.tsx lines 144-186): select the pending
tasks; if none, return early (modelled as `none`).  Otherwise run one
submission per pending task (`Promise.all` over `pendingFiles.map`), merge
the results back into the list by id, and count successes and errors.
Returns (updated list, results, successCount, errorCount); the results and
the counts are what the code surfaces through `onUploadComplete` and the
toasts. -/
def handleUpload (rmatch : String → String → Bool) (cfg : UploaderConfig)
    (files : List UploadedFile) (net : UploadedFile → NetOutcome) :
    Option (List UploadedFile × List UploadedFile × Nat × Nat) :=
  let pendingFiles := files.filter fun f => f.status == UStatus.pending
  if pendingFiles.isEmpty then none
  else
    let results := pendingFiles.map fun f => (uploadFileRun rmatch cfg f (net f)).task
    let updated := files.map fun f =>
      match results.find? (fun r => r.id == f.id) with
      | some r => r
      | none => f
    let successCount := (results.filter fun r => r.status == UStatus.success).length
    let errorCount := (results.filter fun r => r.status == UStatus.error).length
    some (updated, results, successCount, errorCount)

/-! ### Helper lemmas -/

/-- Every `uploadFile` run ends in a terminal status. -/
theorem uploadFileRun_terminal (rmatch : String → String → Bool)
    (cfg : UploaderConfig) (t : UploadedFile) (net : NetOutcome) :
    (uploadFileRun rmatch cfg t net).task.status = UStatus.success ∨
    (uploadFileRun rmatch cfg t net).task.status = UStatus.error := by
  unfold uploadFileRun
  split
  · right; rfl
  · split
    · split
      · left; rfl
      · right; rfl
    · right; rfl

/-- On a list of terminal tasks, the success count and the error count add
up to the length. -/
theorem terminal_counts (l : List UploadedFile)
    (h : ∀ r ∈ l, r.status = UStatus.success ∨ r.status = UStatus.error) :
    (l.filter fun r => r.status == UStatus.success).length +
      (l.filter fun r => r.status == UStatus.error).length = l.length := by
  induction l with
  | nil => simp
  | cons a l ih =>
    have ihl := ih fun r hr => h r (by simp [hr])
    rcases h a (by simp) with ha | ha
    · have e1 : (a.status == UStatus.success) = true := by rw [ha]; rfl
      have e2 : (a.status == UStatus.error) = false := by rw [ha]; rfl
      simp [List.filter_cons, e1, e2]
      omega
    · have e1 : (a.status == UStatus.success) = false := by rw [ha]; rfl
      have e2 : (a.status == UStatus.error) = true := by rw [ha]; rfl
      simp [List.filter_cons, e1, e2]
      omega


/-- Every prefix/suffix decomposition is enumerated by `splitsOf`. -/
theorem splitsOf_mem (a b : List Char) : (a, b) ∈ splitsOf (a ++ b) := by
  induction a with
  | nil => cases b <;> simp [splitsOf]
  | cons c cs ih =>
    simp only [List.cons_append, splitsOf, List.mem_cons]
    right
    exact List.mem_map.mpr ⟨(cs, b), ih, rfl⟩

/-- Sufficient condition for a match of the scenario-D pattern. -/
theorem patMatch_of_parts (a b c : List Char)
    (ha1 : a ≠ []) (ha2 : ∀ x ∈ a, isDecDigit x = true)
    (hb1 : b.length = 6) (hb2 : ∀ x ∈ b, isBase36Char x = true)
    (hc1 : c ≠ []) (hc2 : ∀ x ∈ c, isSafeChar x = true) :
    patMatch (a ++ '-' :: (b ++ '-' :: c)) = true := by
  unfold patMatch
  rw [List.any_eq_true]
  refine ⟨(a, '-' :: (b ++ '-' :: c)), splitsOf_mem a _, ?_⟩
  have e1 : a.isEmpty = false := by
    cases a
    · exact absurd rfl ha1
    · rfl
  have e2 : a.all isDecDigit = true := List.all_eq_true.mpr ha2
  have e3 : tokenAndRest (b ++ '-' :: c) = true := by
    unfold tokenAndRest
    have ht : (b ++ '-' :: c).take 6 = b := by
      rw [← hb1]; exact List.take_left _ _
    have hd : (b ++ '-' :: c).drop 6 = '-' :: c := by
      rw [← hb1]; exact List.drop_left _ _
    have e4 : c.isEmpty = false := by
      cases c
      · exact absurd rfl hc1
      · rfl
    simp [ht, hd, hb1, List.all_eq_true.mpr hb2, e4, List.all_eq_true.mpr hc2]
  simp [e1, e2, e3]

/-- The code of a decimal digit character. -/
theorem decDigitChar_toNat (d : Nat) (hd : d < 10) :
    (decDigitChar d).toNat = 48 + d := by
  interval_cases d <;> decide

/-- A decimal digit character satisfies the `\d` class. -/
theorem isDecDigit_decDigitChar (d : Nat) (hd : d < 10) :
    isDecDigit (decDigitChar d) = true := by
  interval_cases d <;> decide

/-- `decDigitChar` is injective on digits. -/
theorem decDigitChar_injOn (d e : Nat) (hd : d < 10) (he : e < 10)
    (h : decDigitChar d = decDigitChar e) : d = e := by
  have h2 := congrArg Char.toNat h
  rw [decDigitChar_toNat d hd, decDigitChar_toNat e he] at h2
  omega

/-- The decimal rendering of a natural number is never empty. -/
theorem natDecimal_ne_nil (n : Nat) : natDecimal n ≠ [] := by
  unfold natDecimal
  split
  · simp
  · rename_i h
    simp [Nat.digits_ne_nil_iff_ne_zero, h]

/-- Every character of a decimal rendering is a decimal digit. -/
theorem natDecimal_all_digits (n : Nat) :
    ∀ c ∈ natDecimal n, isDecDigit c = true := by
  unfold natDecimal
  split
  · intro c hc
    simp at hc
    subst hc
    decide
  · intro c hc
    simp only [List.mem_map, List.mem_reverse] at hc
    obtain ⟨d, hd, rfl⟩ := hc
    exact isDecDigit_decDigitChar d (Nat.digits_lt_base (by norm_num) hd)

/-- Mapping `decDigitChar` over digit lists is injective. -/
theorem map_decDigitChar_inj (l1 l2 : List Nat)
    (h1 : ∀ d ∈ l1, d < 10) (h2 : ∀ d ∈ l2, d < 10)
    (h : l1.map decDigitChar = l2.map decDigitChar) : l1 = l2 := by
  induction l1 generalizing l2 with
  | nil => cases l2 <;> simp_all
  | cons a l ih =>
    cases l2 with
    | nil => simp_all
    | cons b l2 =>
      simp only [List.map_cons, List.cons.injEq] at h
      obtain ⟨hab, ht⟩ := h
      have hd := decDigitChar_injOn a b (h1 a (by simp)) (h2 b (by simp)) hab
      subst hd
      have := ih l2 (fun d hd => h1 d (by simp [hd]))
        (fun d hd => h2 d (by simp [hd])) ht
      simp [this]

/-- Two positive numbers with the same decimal rendering are equal. -/
theorem natDecimal_inj (m n : Nat) (hm : 0 < m) (hn : 0 < n)
    (h : natDecimal m = natDecimal n) : m = n := by
  unfold natDecimal at h
  rw [if_neg (by omega), if_neg (by omega)] at h
  have hd := map_decDigitChar_inj _ _
    (fun d hdm => Nat.digits_lt_base (by norm_num) (List.mem_reverse.mp hdm))
    (fun d hdn => Nat.digits_lt_base (by norm_num) (List.mem_reverse.mp hdn)) h
  have hdig : Nat.digits 10 m = Nat.digits 10 n := List.reverse_injective hd
  calc m = Nat.ofDigits 10 (Nat.digits 10 m) := (Nat.ofDigits_digits 10 m).symm
    _ = Nat.ofDigits 10 (Nat.digits 10 n) := by rw [hdig]
    _ = n := Nat.ofDigits_digits 10 n

/-- Concrete evaluation of the decimal rendering at 1. -/
theorem natDecimal_one : natDecimal 1 = ['1'] := by
  have h : Nat.digits 10 1 = [1] := by simp
  rw [natDecimal, if_neg (by omega), h]
  decide

/-- Splitting at the first `'-'` is unambiguous when neither prefix
contains `'-'`. -/
theorem append_dash_cancel (a1 r1 a2 r2 : List Char)
    (h1 : '-' ∉ a1) (h2 : '-' ∉ a2)
    (h : a1 ++ '-' :: r1 = a2 ++ '-' :: r2) : a1 = a2 ∧ r1 = r2 := by
  induction a1 generalizing a2 with
  | nil =>
    cases a2 with
    | nil => simpa using h
    | cons b bs =>
      simp only [List.nil_append, List.cons_append, List.cons.injEq] at h
      exact absurd (by rw [h.1]; exact List.mem_cons_self b bs) h2
  | cons a as ih =>
    cases a2 with
    | nil =>
      simp only [List.cons_append, List.nil_append, List.cons.injEq] at h
      exact absurd (by rw [← h.1]; exact List.mem_cons_self a as) h1
    | cons b bs =>
      simp only [List.cons_append, List.cons.injEq] at h
      obtain ⟨rfl, ht⟩ := h
      have := ih bs (fun hx => h1 (List.mem_cons_of_mem _ hx))
        (fun hx => h2 (List.mem_cons_of_mem _ hx)) ht
      simp [this.1, this.2]

/-! ### Claims -/

/-- Claim C10: the accepted-type filter is bypassed exactly when the first
element of `acceptedTypes` is `'*'`; otherwise a file passes exactly when its
size is within the limit and its MIME type matches at least one configured
pattern.  A `'*'` at a later position has no special role. -/
theorem validateFile_passes_iff (rmatch : String → String → Bool)
    (cfg : UploaderConfig) (f : JsFile) :
    validateFile rmatch cfg f = none ↔
      (f.size ≤ cfg.maxFileSize * 1024 * 1024 ∧
        (cfg.acceptedTypes.head? = some "*" ∨
          ∃ p ∈ cfg.acceptedTypes, rmatch f.ftype p = true)) := by
  unfold validateFile
  by_cases h1 : f.size > cfg.maxFileSize * 1024 * 1024
  · rw [if_pos h1]
    constructor
    · intro hcon; exact absurd hcon (by simp)
    · rintro ⟨hsz, -⟩; omega
  · rw [if_neg h1]
    by_cases h2 : cfg.acceptedTypes.head? = some "*"
    · have hb : (cfg.acceptedTypes.head? != some "*") = false := by
        simp [h2]
      rw [if_neg (by simp [hb])]
      constructor
      · intro _; exact ⟨by omega, Or.inl h2⟩
      · intro _; rfl
    · have hb : (cfg.acceptedTypes.head? != some "*") = true :=
        bne_iff_ne.mpr h2
      by_cases h3 : (cfg.acceptedTypes.any fun t => rmatch f.ftype t) = true
      · rw [if_neg (by simp [h3])]
        constructor
        · intro _
          refine ⟨by omega, Or.inr ?_⟩
          simpa using List.any_eq_true.mp h3
        · intro _; rfl
      · have h3f : (cfg.acceptedTypes.any fun t => rmatch f.ftype t) = false :=
          Bool.eq_false_iff.mpr h3
        rw [if_pos (by simp [hb, h3f])]
        constructor
        · intro hcon; exact absurd hcon (by simp)
        · rintro ⟨hsz, hd | ⟨p, hp, hm⟩⟩
          · exact absurd hd h2
          · exact absurd (List.any_eq_true.mpr ⟨p, hp, hm⟩) h3

/-- Claim C1: a file whose size exceeds the configured maximum, or whose
MIME type fails the accepted-type filter, makes `uploadFile` return an error
task immediately: no `fetch` call, no progress interval, and the error
message names the rule that failed (the size rule is checked first). -/
theorem uploadFileRun_local_reject (rmatch : String → String → Bool)
    (cfg : UploaderConfig) (t : UploadedFile) (net : NetOutcome)
    (h : t.file.size > cfg.maxFileSize * 1024 * 1024 ∨
      (cfg.acceptedTypes.head? ≠ some "*" ∧
        ∀ p ∈ cfg.acceptedTypes, rmatch t.file.ftype p = false)) :
    (uploadFileRun rmatch cfg t net).fetchCalls = 0 ∧
    (uploadFileRun rmatch cfg t net).timerStarted = false ∧
    (uploadFileRun rmatch cfg t net).task.status = UStatus.error ∧
    (uploadFileRun rmatch cfg t net).task.errorMessage =
      some (if t.file.size > cfg.maxFileSize * 1024 * 1024 then
              "File exceeds " ++ toString cfg.maxFileSize ++ "MB limit"
            else "File type not accepted") := by
  have hv : validateFile rmatch cfg t.file =
      some (if t.file.size > cfg.maxFileSize * 1024 * 1024 then
              "File exceeds " ++ toString cfg.maxFileSize ++ "MB limit"
            else "File type not accepted") := by
    unfold validateFile
    by_cases h1 : t.file.size > cfg.maxFileSize * 1024 * 1024
    · simp [h1]
    · rcases h with h | ⟨h2, h3⟩
      · exact absurd h h1
      · have hany : (cfg.acceptedTypes.any fun p => rmatch t.file.ftype p) = false := by
          rw [Bool.eq_false_iff]
          intro hc
          obtain ⟨p, hp, hm⟩ := List.any_eq_true.mp hc
          rw [h3 p hp] at hm
          exact Bool.false_ne_true hm
        simp [h1, h2, hany, bne_iff_ne]
  simp [uploadFileRun, hv]

/-- Witness for C1: an 11MB file against the default 10MB limit. -/
theorem uploadFileRun_local_reject_witness :
    (uploadFileRun (fun _ _ => false) {}
        (addFile ⟨"big.bin", 11534337, "application/octet-stream"⟩ 1 "r")
        (.response 200 "OK")).fetchCalls = 0 ∧
    (uploadFileRun (fun _ _ => false) {}
        (addFile ⟨"big.bin", 11534337, "application/octet-stream"⟩ 1 "r")
        (.response 200 "OK")).task.status = UStatus.error :=
  ⟨(uploadFileRun_local_reject _ _ _ _ (Or.inl (by decide))).1,
   (uploadFileRun_local_reject _ _ _ _ (Or.inl (by decide))).2.2.1⟩

/-- Claim C4: a task that passes local validation and whose fetch resolves
with a 2xx response ends as `success` with `progress = 100`. -/
theorem uploadFileRun_success (rmatch : String → String → Bool)
    (cfg : UploaderConfig) (t : UploadedFile) (code : Nat) (text : String)
    (hv : validateFile rmatch cfg t.file = none)
    (h2 : 200 ≤ code) (h3 : code < 300) :
    (uploadFileRun rmatch cfg t (.response code text)).task.status =
      UStatus.success ∧
    (uploadFileRun rmatch cfg t (.response code text)).task.progress = 100 := by
  have hok : respOk code = true := by simp [respOk]; omega
  simp [uploadFileRun, hv, hok]

/-- Witness for C4: a 5-byte file under the default config, response 200. -/
theorem uploadFileRun_success_witness :
    (uploadFileRun (fun _ _ => false) {}
        (addFile ⟨"a.txt", 5, "text/plain"⟩ 1 "r")
        (.response 200 "OK")).task.status = UStatus.success ∧
    (uploadFileRun (fun _ _ => false) {}
        (addFile ⟨"a.txt", 5, "text/plain"⟩ 1 "r")
        (.response 200 "OK")).task.progress = 100 :=
  uploadFileRun_success _ _ _ 200 "OK" (by decide) (by decide) (by decide)

/-- Claim C5 counterexample: a rejected fetch whose thrown `Error` carries an
empty `message` yields `errorMessage = some ""`, which is empty — against the
claim that the error message is always non-empty. -/
theorem uploadFileRun_empty_message_counterexample :
    (uploadFileRun (fun _ _ => true) {}
        (addFile ⟨"a.txt", 5, "text/plain"⟩ 1 "r")
        (.exception (some ""))).task.status = UStatus.error ∧
    (uploadFileRun (fun _ _ => true) {}
        (addFile ⟨"a.txt", 5, "text/plain"⟩ 1 "r")
        (.exception (some ""))).task.progress = 0 ∧
    (uploadFileRun (fun _ _ => true) {}
        (addFile ⟨"a.txt", 5, "text/plain"⟩ 1 "r")
        (.exception (some ""))).task.errorMessage = some "" := by
  decide

/-- Claim C5 (amended): a validated task whose network call fails ends as
`error` with `progress = 0` and `errorMessage` equal to the derived detail
(`"Upload failed: " ++ statusText` for a non-2xx response, the exception
message or the `"Upload failed"` fallback otherwise); that detail is
non-empty except when the thrown exception is an `Error` whose message is
the empty string. -/
theorem uploadFileRun_failure (rmatch : String → String → Bool)
    (cfg : UploaderConfig) (t : UploadedFile) (net : NetOutcome)
    (hv : validateFile rmatch cfg t.file = none)
    (hf : netFails net = true) :
    (uploadFileRun rmatch cfg t net).task.status = UStatus.error ∧
    (uploadFileRun rmatch cfg t net).task.progress = 0 ∧
    (uploadFileRun rmatch cfg t net).task.errorMessage =
      some (failMessage net) ∧
    (net = .exception (some "") ∨ failMessage net ≠ "") := by
  cases net with
  | response code text =>
    have hok : respOk code = false := by simpa [netFails] using hf
    refine ⟨?_, ?_, ?_, Or.inr ?_⟩ <;>
      simp [uploadFileRun, hv, hok, failMessage]
    intro hc
    have hlen := congrArg String.length hc
    rw [String.length_append] at hlen
    have e15 : ("Upload failed: " : String).length = 15 := rfl
    have e0 : ("" : String).length = 0 := rfl
    omega
  | exception m =>
    cases m with
    | none =>
      refine ⟨?_, ?_, ?_, Or.inr ?_⟩ <;>
        simp [uploadFileRun, hv, failMessage]
    | some s =>
      by_cases hs : s = ""
      · subst hs
        exact ⟨by simp [uploadFileRun, hv], by simp [uploadFileRun, hv],
          by simp [uploadFileRun, hv, failMessage], Or.inl rfl⟩
      · refine ⟨?_, ?_, ?_, Or.inr ?_⟩ <;>
          simp [uploadFileRun, hv, failMessage, hs]

/-- Witness for the amended C5: a validated task with a 500 response. -/
theorem uploadFileRun_failure_witness :
    (uploadFileRun (fun _ _ => true) {}
        (addFile ⟨"a.txt", 5, "text/plain"⟩ 1 "r")
        (.response 500 "Internal Server Error")).task.status = UStatus.error ∧
    (uploadFileRun (fun _ _ => true) {}
        (addFile ⟨"a.txt", 5, "text/plain"⟩ 1 "r")
        (.response 500 "Internal Server Error")).task.progress = 0 ∧
    (uploadFileRun (fun _ _ => true) {}
        (addFile ⟨"a.txt", 5, "text/plain"⟩ 1 "r")
        (.response 500 "Internal Server Error")).task.errorMessage =
      some (failMessage (.response 500 "Internal Server Error")) ∧
    ((.response 500 "Internal Server Error") =
        NetOutcome.exception (some "") ∨
      failMessage (.response 500 "Internal Server Error") ≠ "") :=
  uploadFileRun_failure _ _ _ _ (by decide) (by decide)

/-- Claim C6 (code defect): the 200ms tick only advances a task that is
`uploading` with progress below 90, by +20 capped at 90 — but the interval
is cleared only on the two paths that execute line 131 of FileUploader.tsx
(a 2xx response, and a non-2xx response which throws *after* `clearInterval`).
When the fetch itself rejects, control jumps from line 126 straight into the
catch block and `clearInterval` is never executed: the interval leaks and
keeps firing after the network operation has resolved. -/
theorem uploadFile_timer_leak_on_rejection :
    progressTick "x" [⟨"x", ⟨"a", 5, "t"⟩, .uploading, 70, none⟩] =
      [⟨"x", ⟨"a", 5, "t"⟩, .uploading, 90, none⟩] ∧
    progressTick "x" [⟨"x", ⟨"a", 5, "t"⟩, .uploading, 90, none⟩] =
      [⟨"x", ⟨"a", 5, "t"⟩, .uploading, 90, none⟩] ∧
    progressTick "x" [⟨"x", ⟨"a", 5, "t"⟩, .success, 100, none⟩] =
      [⟨"x", ⟨"a", 5, "t"⟩, .success, 100, none⟩] ∧
    (uploadFileRun (fun _ _ => true) {}
        (addFile ⟨"a.txt", 5, "text/plain"⟩ 1 "r")
        (.response 200 "OK")).timerCleared = true ∧
    (uploadFileRun (fun _ _ => true) {}
        (addFile ⟨"a.txt", 5, "text/plain"⟩ 1 "r")
        (.response 500 "ISE")).timerCleared = true ∧
    (uploadFileRun (fun _ _ => true) {}
        (addFile ⟨"a.txt", 5, "text/plain"⟩ 1 "r")
        (.exception none)).timerStarted = true ∧
    (uploadFileRun (fun _ _ => true) {}
        (addFile ⟨"a.txt", 5, "text/plain"⟩ 1 "r")
        (.exception none)).timerCleared = false := by
  decide

/-- Claim C9: `removeFile` with an absent id is a no-op; with a present id
whose occurrence is unique it erases exactly that task, keeping every other
task and their relative order. -/
theorem removeFile_frame (id : String) (files : List UploadedFile) :
    ((∀ f ∈ files, f.id ≠ id) → removeFile id files = files) ∧
    (∀ t pre post, files = pre ++ t :: post → t.id = id →
      (∀ f ∈ pre, f.id ≠ id) → (∀ f ∈ post, f.id ≠ id) →
      removeFile id files = pre ++ post) := by
  constructor
  · intro h
    unfold removeFile
    apply List.filter_eq_self.mpr
    intro a ha
    simpa [bne_iff_ne] using h a ha
  · rintro t pre post rfl ht hpre hpost
    unfold removeFile
    rw [List.filter_append]
    have h1 : List.filter (fun f => f.id != id) pre = pre := by
      apply List.filter_eq_self.mpr
      intro a ha
      simpa [bne_iff_ne] using hpre a ha
    have h2 : (t.id != id) = false := by simp [ht]
    have h3 : List.filter (fun f => f.id != id) post = post := by
      apply List.filter_eq_self.mpr
      intro a ha
      simpa [bne_iff_ne] using hpost a ha
    rw [h1, List.filter_cons, h2]
    simp [h3]

/-- Witness for C9: removing an absent id, and removing the middle task. -/
theorem removeFile_frame_witness :
    removeFile "zz"
        [(⟨"a", ⟨"a", 1, "t"⟩, .pending, 0, none⟩ : UploadedFile),
         (⟨"b", ⟨"b", 2, "t"⟩, .error, 0, some "x"⟩ : UploadedFile)] =
      [(⟨"a", ⟨"a", 1, "t"⟩, .pending, 0, none⟩ : UploadedFile),
       (⟨"b", ⟨"b", 2, "t"⟩, .error, 0, some "x"⟩ : UploadedFile)] ∧
    removeFile "b"
        [(⟨"a", ⟨"a", 1, "t"⟩, .pending, 0, none⟩ : UploadedFile),
         (⟨"b", ⟨"b", 2, "t"⟩, .error, 0, some "x"⟩ : UploadedFile),
         (⟨"c", ⟨"c", 3, "t"⟩, .pending, 0, none⟩ : UploadedFile)] =
      [(⟨"a", ⟨"a", 1, "t"⟩, .pending, 0, none⟩ : UploadedFile),
       (⟨"c", ⟨"c", 3, "t"⟩, .pending, 0, none⟩ : UploadedFile)] :=
  ⟨(removeFile_frame "zz" _).1 (by decide),
   (removeFile_frame "b" _).2
     (⟨"b", ⟨"b", 2, "t"⟩, .error, 0, some "x"⟩ : UploadedFile)
     [(⟨"a", ⟨"a", 1, "t"⟩, .pending, 0, none⟩ : UploadedFile)]
     [(⟨"c", ⟨"c", 3, "t"⟩, .pending, 0, none⟩ : UploadedFile)]
     rfl rfl (by decide) (by decide)⟩

/-- Claim C7: `handleUpload` selects exactly the currently pending tasks,
runs one submission per selected task, and every per-task result is
terminal, so the success count plus the error count equals the number of
selected tasks; the results and both counts are part of the returned
value. -/
theorem handleUpload_counts (rmatch : String → String → Bool)
    (cfg : UploaderConfig) (files : List UploadedFile)
    (net : UploadedFile → NetOutcome)
    (h : files.filter (fun f => f.status == UStatus.pending) ≠ []) :
    ∃ updated results succCount errCount,
      handleUpload rmatch cfg files net =
        some (updated, results, succCount, errCount) ∧
      results = (files.filter fun f => f.status == UStatus.pending).map
        (fun f => (uploadFileRun rmatch cfg f (net f)).task) ∧
      results.length =
        (files.filter fun f => f.status == UStatus.pending).length ∧
      (∀ r ∈ results, r.status = UStatus.success ∨ r.status = UStatus.error) ∧
      succCount + errCount = results.length := by
  have hne : (files.filter fun f => f.status == UStatus.pending).isEmpty =
      false := by
    rw [← Bool.not_eq_true, List.isEmpty_iff]
    exact h
  simp only [handleUpload, hne, Bool.false_eq_true, if_false]
  refine ⟨_, _, _, _, rfl, rfl, List.length_map _ _, ?_, ?_⟩
  · intro r hr
    obtain ⟨f, _, rfl⟩ := List.mem_map.mp hr
    exact uploadFileRun_terminal rmatch cfg f (net f)
  · apply terminal_counts
    intro r hr
    obtain ⟨f, _, rfl⟩ := List.mem_map.mp hr
    exact uploadFileRun_terminal rmatch cfg f (net f)

/-- Witness for C7: one pending task submitted against a 200 response. -/
theorem handleUpload_counts_witness :
    ∃ updated results succCount errCount,
      handleUpload (fun _ _ => true) {}
          [addFile ⟨"a.txt", 5, "text/plain"⟩ 1 "r"]
          (fun _ => .response 200 "OK") =
        some (updated, results, succCount, errCount) ∧
      succCount + errCount = results.length := by
  obtain ⟨u, r, s, e, h1, -, -, -, h5⟩ :=
    handleUpload_counts (fun _ _ => true) {}
      [addFile ⟨"a.txt", 5, "text/plain"⟩ 1 "r"]
      (fun _ => .response 200 "OK") (by decide)
  exact ⟨u, r, s, e, h1, h5⟩

/-- Claim C3: for a non-preflight request the handler replies 400 exactly
when the `file` field is missing (error text exactly "No file provided") or
the declared size exceeds 10 MiB; every 400 reply carries the
`{error: string}` body shape.  The check is the server's own
(`handleRequest` contains no client-side input). -/
theorem handleRequest_400_iff (method : String) (file : Option IncomingFile)
    (ts : Nat) (fracDigits : List Char) (store : StoreCall → StoreResult)
    (publicUrl : List Char → String) (hm : method ≠ "OPTIONS") :
    ((handleRequest method file ts fracDigits store publicUrl).1.status =
        400 ↔
      (file = none ∨ ∃ f, file = some f ∧ f.size > maxSize)) ∧
    (file = none →
      (handleRequest method file ts fracDigits store publicUrl).1.body =
        ReplyBody.errorBody "No file provided") ∧
    (∀ f, file = some f → f.size > maxSize →
      (handleRequest method file ts fracDigits store publicUrl).1.body =
        ReplyBody.errorBody "File exceeds 10MB limit") ∧
    ((handleRequest method file ts fracDigits store publicUrl).1.status =
        400 →
      ∃ msg, (handleRequest method file ts fracDigits store publicUrl).1.body =
        ReplyBody.errorBody msg) := by
  unfold handleRequest
  rw [if_neg hm]
  cases file with
  | none => simp
  | some f =>
    by_cases hs : f.size > maxSize
    · simp [hs]
    · rcases hst : store
          { bucket := "uploads",
            objectName := uniqueFileName ts fracDigits f.name,
            contentType := f.ftype, upsert := false } with ⟨path⟩ | ⟨m⟩ <;>
        simp [hst, hs] <;> omega

/-- Witness for C3: a POST with no file field gets the exact 400 body. -/
theorem handleRequest_400_iff_witness :
    (handleRequest "POST" none 1 []
        (fun _ => StoreResult.ok "p") (fun _ => "u")).1.status = 400 ∧
    (handleRequest "POST" none 1 []
        (fun _ => StoreResult.ok "p") (fun _ => "u")).1.body =
      ReplyBody.errorBody "No file provided" :=
  ⟨(handleRequest_400_iff "POST" none 1 []
      (fun _ => StoreResult.ok "p") (fun _ => "u") (by decide)).1.mpr
      (Or.inl rfl),
   (handleRequest_400_iff "POST" none 1 []
      (fun _ => StoreResult.ok "p") (fun _ => "u") (by decide)).2.1 rfl⟩

/-- Claim C2 counterexample, two failing inputs.  (i) When `Math.random()`
returns `0` its base-36 representation is `"0"`, so `substring(2, 8)` is
empty: the token has length 0 (not 6) and the derived name `"1--a"` does not
match `^\d+-[0-9a-z]{6}-[A-Za-z0-9._-]+$`.  (ii) Even with a full
6-character token, an empty original file name derives `"1-abcdef-"`, whose
tail after the second `-` is empty, so the `[A-Za-z0-9._-]+` part of the
pattern fails as well. -/
theorem uniqueFileName_short_token_counterexample :
    randomToken [] = ([] : List Char) ∧
    uniqueFileName 1 [] ['a'] = ['1', '-', '-', 'a'] ∧
    patMatch (uniqueFileName 1 [] ['a']) = false ∧
    uniqueFileName 1 ['a', 'b', 'c', 'd', 'e', 'f'] [] =
      ['1', '-', 'a', 'b', 'c', 'd', 'e', 'f', '-'] ∧
    patMatch (uniqueFileName 1 ['a', 'b', 'c', 'd', 'e', 'f'] []) = false := by
  have h1 : uniqueFileName 1 [] ['a'] = ['1', '-', '-', 'a'] := by
    unfold uniqueFileName
    rw [natDecimal_one]
    rfl
  have h2 : uniqueFileName 1 ['a', 'b', 'c', 'd', 'e', 'f'] [] =
      ['1', '-', 'a', 'b', 'c', 'd', 'e', 'f', '-'] := by
    unfold uniqueFileName
    rw [natDecimal_one]
    rfl
  exact ⟨rfl, h1, by rw [h1]; decide, h2, by rw [h2]; decide⟩

/-- Claim C2 (amended): the storage name is
`<epoch-millis>-<token>-<sanitized-name>` where the token is the first
`min(6, k)` fractional base-36 digits of the random value and sanitization
replaces every character outside `[A-Za-z0-9._-]` with `'_'`; whenever the
random value has at least 6 fractional base-36 digits and the original name
is non-empty, the token has exactly 6 characters and the name matches
`^\d+-[0-9a-z]{6}-[A-Za-z0-9._-]+$`. -/
theorem uniqueFileName_shape (ts : Nat) (fracDigits : List Char)
    (origName : List Char)
    (h6 : 6 ≤ fracDigits.length)
    (hb : ∀ c ∈ fracDigits, isBase36Char c = true)
    (hn : origName ≠ []) :
    uniqueFileName ts fracDigits origName =
      natDecimal ts ++ '-' ::
        (fracDigits.take 6 ++ '-' ::
          origName.map (fun c => if isSafeChar c then c else '_')) ∧
    (randomToken fracDigits).length = 6 ∧
    patMatch (uniqueFileName ts fracDigits origName) = true := by
  have hlen : (randomToken fracDigits).length = 6 := by
    simp [randomToken, List.length_take]
    omega
  refine ⟨rfl, hlen, ?_⟩
  unfold uniqueFileName
  apply patMatch_of_parts
  · exact natDecimal_ne_nil ts
  · exact natDecimal_all_digits ts
  · exact hlen
  · intro x hx
    exact hb x (List.mem_of_mem_take hx)
  · simp [sanitize, hn]
  · intro x hx
    simp only [sanitize, List.mem_map] at hx
    obtain ⟨c, hc, rfl⟩ := hx
    by_cases h : isSafeChar c = true
    · rw [if_pos h]; exact h
    · rw [if_neg h]; decide

/-- Witness for the amended C2: timestamp 3, token `abc123`, name `a.txt`. -/
theorem uniqueFileName_shape_witness :
    uniqueFileName 3 ['a', 'b', 'c', '1', '2', '3'] ['a', '.', 't', 'x', 't'] =
      natDecimal 3 ++ '-' ::
        (['a', 'b', 'c', '1', '2', '3'].take 6 ++ '-' ::
          ['a', '.', 't', 'x', 't'].map
            (fun c => if isSafeChar c then c else '_')) ∧
    (randomToken ['a', 'b', 'c', '1', '2', '3']).length = 6 ∧
    patMatch (uniqueFileName 3 ['a', 'b', 'c', '1', '2', '3']
      ['a', '.', 't', 'x', 't']) = true :=
  uniqueFileName_shape 3 _ _ (by decide) (by decide) (by decide)

/-- Claim C8: distinct (timestamp, token) pairs give distinct storage names
for the same original file name (the name parses back unambiguously because
neither the decimal timestamp nor the base-36 token can contain `'-'`), and
every store call issued by the handler has `upsert := false`, so a stored
object is never overwritten. -/
theorem uniqueFileName_distinct_no_overwrite :
    (∀ ts1 d1 ts2 d2 origName, 0 < ts1 → 0 < ts2 →
      (∀ c ∈ randomToken d1, isBase36Char c = true) →
      (∀ c ∈ randomToken d2, isBase36Char c = true) →
      ts1 ≠ ts2 ∨ randomToken d1 ≠ randomToken d2 →
      uniqueFileName ts1 d1 origName ≠ uniqueFileName ts2 d2 origName) ∧
    (∀ method file ts fracDigits store publicUrl,
      ((handleRequest method file ts fracDigits store publicUrl).2.all
        fun c => c.upsert == false) = true) := by
  constructor
  · intro ts1 d1 ts2 d2 origName hts1 hts2 hb1 hb2 hne heq
    unfold uniqueFileName at heq
    have hdash1 : '-' ∉ natDecimal ts1 := by
      intro hmem
      exact absurd (natDecimal_all_digits ts1 _ hmem) (by decide)
    have hdash2 : '-' ∉ natDecimal ts2 := by
      intro hmem
      exact absurd (natDecimal_all_digits ts2 _ hmem) (by decide)
    obtain ⟨hA, hR⟩ := append_dash_cancel _ _ _ _ hdash1 hdash2 heq
    have htok1 : '-' ∉ randomToken d1 := by
      intro hmem
      exact absurd (hb1 _ hmem) (by decide)
    have htok2 : '-' ∉ randomToken d2 := by
      intro hmem
      exact absurd (hb2 _ hmem) (by decide)
    obtain ⟨hB, -⟩ := append_dash_cancel _ _ _ _ htok1 htok2 hR
    rcases hne with hne | hne
    · exact hne (natDecimal_inj _ _ hts1 hts2 hA)
    · exact hne hB
  · intro method file ts fracDigits store publicUrl
    unfold handleRequest
    split
    · rfl
    · cases file with
      | none => rfl
      | some f =>
        dsimp only
        split
        · rfl
        · split <;> rfl

/-- Witness for C8: same token and name, timestamps 1 and 2; and a concrete
POST whose store-call list carries `upsert := false`. -/
theorem uniqueFileName_distinct_no_overwrite_witness :
    uniqueFileName 1 ['a', 'b', 'c', 'd', 'e', 'f'] ['x'] ≠
      uniqueFileName 2 ['a', 'b', 'c', 'd', 'e', 'f'] ['x'] ∧
    ((handleRequest "POST" (some ⟨['x'], 5, "t"⟩) 1
        ['a', 'b', 'c', 'd', 'e', 'f']
        (fun _ => StoreResult.ok "p") (fun _ => "u")).2.all
      fun c => c.upsert == false) = true :=
  ⟨uniqueFileName_distinct_no_overwrite.1 1 _ 2 _ _ (by decide) (by decide)
      (by decide) (by decide) (Or.inl (by decide)),
   uniqueFileName_distinct_no_overwrite.2 "POST" _ 1 _ _ _⟩

end FileSender
